import Mathlib

/-!
Verification development for the SIA (Self-Initiating Agent) runtime.

This file shallowly embeds the parts of the Python source that the spec
claims are about, and proves or refutes each claim:

* `src/utils/problem_state_machine.py` — problem status transitions;
* `src/layers/crosscutting/policy.py` — permission checks;
* `src/utils/problem_scoring.py` — problem score and gap filtering;
* `src/utils/baseline_calculator.py` — personal baselines;
* `src/utils/agent_conflict_manager.py` — resource locks;
* `src/utils/execution_utils.py` and `src/layers/execution.py` — the
  execution mini-runtime (rate limit, idempotency, conflicts, effects);
* `src/layers/crosscutting/security.py` and `observability.py` — the
  sensitivity rules and audit entries.

Modelling conventions: Python dictionaries become structures whose fields
are `Option`-valued exactly where the code reads them with `.get` without
a default that is observable; `dict.get(k, d)` becomes `Option.getD`;
ISO timestamps become rational epoch seconds (their content is never
inspected by the code under verification, only their placement);
Python exceptions become explicit error values returned next to the
(unchanged) input; the global mutable tables become explicit state.
-/

/-- Python substring test `needle in hay` on character lists. -/
def listHasSub (needle : List Char) : List Char → Bool
  | [] => needle.isEmpty
  | c :: rest => needle.isPrefixOf (c :: rest) || listHasSub needle (rest)

/-- Python substring test `needle in hay` on strings. -/
def strContains (hay needle : String) : Bool :=
  listHasSub needle.toList hay.toList

/-- Python `s.lower()`.  (`String.toLower` itself is not used because its
byte-position loop does not reduce in the kernel.) -/
def pyLower (s : String) : String :=
  String.mk (s.toList.map Char.toLower)

/-- Association-list model of Python dict read `d[k]` / `d.get(k)`. -/
def alGet (k : String) : List (String × α) → Option α
  | [] => none
  | (k2, v) :: rest => if k2 = k then some v else alGet k rest

/-- Association-list model of Python dict write `d[k] = v`
(replaces in place, or appends when the key is new). -/
def alInsert (k : String) (v : α) : List (String × α) → List (String × α)
  | [] => [(k, v)]
  | (k2, v2) :: rest => if k2 = k then (k, v) :: rest else (k2, v2) :: alInsert k v rest

/-- Association-list model of Python dict delete `del d[k]` (a Python
dict holds each key at most once, so dropping every pair with the key is
the faithful deletion). -/
def alErase (k : String) (l : List (String × α)) : List (String × α) :=
  l.filter (fun p => p.1 ≠ k)

theorem alGet_alInsert_self (k : String) (v : α) (l : List (String × α)) :
    alGet k (alInsert k v l) = some v := by
  induction l with
  | nil => simp [alInsert, alGet]
  | cons hd tl ih =>
    by_cases h : hd.1 = k
    · simp [alInsert, alGet, h]
    · simp [alInsert, alGet, h, ih]

theorem alGet_alInsert_ne (k k2 : String) (v : α) (l : List (String × α)) (h : k2 ≠ k) :
    alGet k2 (alInsert k v l) = alGet k2 l := by
  have hk : k ≠ k2 := Ne.symm h
  induction l with
  | nil => simp [alInsert, alGet, hk]
  | cons hd tl ih =>
    by_cases hh : hd.1 = k
    · simp [alInsert, alGet, hh, hk]
    · simp [alInsert, alGet, hh, ih]

theorem alGet_alErase_ne (k k2 : String) (l : List (String × α)) (h : k2 ≠ k) :
    alGet k2 (alErase k l) = alGet k2 l := by
  unfold alErase
  simp only [ne_eq, decide_not]
  induction l with
  | nil => rfl
  | cons hd tl ih =>
    by_cases hh : hd.1 = k
    · have hne : ¬ hd.1 = k2 := by rw [hh]; exact Ne.symm h
      have hk : ¬ k = k2 := Ne.symm h
      simp [List.filter_cons, alGet, hh, hne, hk, ih]
    · simp [List.filter_cons, alGet, hh, ih]

theorem alGet_alErase_self (k : String) (l : List (String × α)) :
    alGet k (alErase k l) = none := by
  unfold alErase
  simp only [ne_eq, decide_not]
  induction l with
  | nil => rfl
  | cons hd tl ih =>
    by_cases hh : hd.1 = k
    · simp [List.filter_cons, hh, ih]
    · simp [List.filter_cons, alGet, hh, ih]

/-! ## Problem state machine (`src/utils/problem_state_machine.py`) -/

/-- The `ProblemStatus` enum. -/
inductive ProblemStatus where
  | candidate
  | proposed
  | confirmed
  | rejected
  | snoozed
  | archived
deriving DecidableEq, Repr

/-- `ProblemStatus(s)`: parse a status string; `ValueError` becomes `none`. -/
def ProblemStatus.ofString : String → Option ProblemStatus
  | "candidate" => some .candidate
  | "proposed" => some .proposed
  | "confirmed" => some .confirmed
  | "rejected" => some .rejected
  | "snoozed" => some .snoozed
  | "archived" => some .archived
  | _ => none

/-- `ProblemStatus.<X>.value`. -/
def ProblemStatus.value : ProblemStatus → String
  | .candidate => "candidate"
  | .proposed => "proposed"
  | .confirmed => "confirmed"
  | .rejected => "rejected"
  | .snoozed => "snoozed"
  | .archived => "archived"

/-- `ProblemStateMachine.ALLOWED_TRANSITIONS`. -/
def ALLOWED_TRANSITIONS : ProblemStatus → List ProblemStatus
  | .candidate => [.proposed]
  | .proposed => [.confirmed, .rejected, .snoozed]
  | .confirmed => [.archived]
  | .rejected => []
  | .snoozed => [.candidate, .rejected]
  | .archived => []

/-- `ProblemStateMachine.can_transition`. -/
def can_transition (current_status target_status : String) : Bool :=
  match ProblemStatus.ofString current_status, ProblemStatus.ofString target_status with
  | some current, some target => (ALLOWED_TRANSITIONS current).contains target
  | _, _ => false

/-- One `transition_history` entry. -/
structure TransitionEntry where
  src : String
  dst : String
  user_action : Option String
  reason : Option String
  timestamp : ℚ
deriving DecidableEq, Repr

/-- A problem record, restricted to the keys the state machine touches.
Timestamps are rational epoch seconds. -/
structure Problem where
  status : Option String := none
  updated_at : Option ℚ := none
  transition_history : List TransitionEntry := []
  proposed_at : Option ℚ := none
  confirmed_at : Option ℚ := none
  confirmed_by : Option String := none
  rejected_at : Option ℚ := none
  rejection_reason : Option String := none
  snoozed_at : Option ℚ := none
  snooze_until : Option ℚ := none
  snooze_reason : Option String := none
  archived_at : Option ℚ := none
  archive_reason : Option String := none
deriving DecidableEq, Repr

/-- The `ValueError` raised by `ProblemStateMachine.transition` on a
disallowed transition (the spec calls it `IllegalTransition`). -/
structure IllegalTransitionError where
  current : String
  target : String
deriving DecidableEq, Repr

/-- `ProblemStateMachine.transition`.  The Python function mutates the
problem dict in place and raises on a disallowed transition *before any
mutation*; we model it as returning the optional error together with the
(possibly updated) record. -/
def transition (problem : Problem) (target_status : String)
    (user_action : Option String) (reason : Option String) (now : ℚ) :
    Option IllegalTransitionError × Problem :=
  let current_status := problem.status.getD "candidate"
  if ¬ can_transition current_status target_status then
    (some ⟨current_status, target_status⟩, problem)
  else
    let p1 := { problem with
      status := some target_status
      updated_at := some now
      transition_history := problem.transition_history ++
        [⟨current_status, target_status, user_action, reason, now⟩] }
    let p2 :=
      if target_status = "proposed" then
        { p1 with proposed_at := some now }
      else if target_status = "confirmed" then
        { p1 with confirmed_at := some now, confirmed_by := user_action }
      else if target_status = "rejected" then
        { p1 with rejected_at := some now, rejection_reason := reason }
      else if target_status = "snoozed" then
        let p := { p1 with snoozed_at := some now, snooze_until := some (now + 7 * 86400) }
        match reason with
        | some r => { p with snooze_reason := some r }
        | none => p
      else if target_status = "archived" then
        let p := { p1 with archived_at := some now }
        match reason with
        | some r => { p with archive_reason := some r }
        | none => p
      else p1
    (none, p2)

/-- The transition graph exactly as the claim lists it:
Candidate→Proposed, Proposed→{Confirmed, Rejected, Snoozed},
Snoozed→{Candidate, Rejected}, Confirmed→Archived,
Rejected and Archived terminal. -/
def claimEdge : ProblemStatus → ProblemStatus → Bool
  | .candidate, .proposed => true
  | .proposed, .confirmed => true
  | .proposed, .rejected => true
  | .proposed, .snoozed => true
  | .snoozed, .candidate => true
  | .snoozed, .rejected => true
  | .confirmed, .archived => true
  | _, _ => false

/-! ## Policy layer (`src/layers/crosscutting/policy.py`) -/

/-- The `ActionType` enum. -/
inductive ActionType where
  | read
  | write
  | delete
  | notify
  | execute
deriving DecidableEq, Repr

/-- `_classify_action`: keyword-based classification of an action string.
(The Python constructor for the fourth class is named `NOTIFICATION`;
it is rendered `notify` here.) -/
def _classify_action (action : String) : ActionType :=
  let action_lower := pyLower action
  if ["read", "get", "fetch", "load"].any (fun kw => strContains action_lower kw) then
    .read
  else if ["write", "create", "update", "apply", "send"].any
      (fun kw => strContains action_lower kw) then
    .write
  else if ["delete", "remove", "drop"].any (fun kw => strContains action_lower kw) then
    .delete
  else if ["notify", "notification", "alert"].any (fun kw => strContains action_lower kw) then
    .notify
  else
    .execute

/-- `world_model["safety"]["policy"]`, with the defaults `check_permission`
reads (`default_write_block` defaults to `True`, the lists to `[]`). -/
structure PolicyCfg where
  default_write_block : Bool := true
  action_allowlist : List String := []
  forbidden_actions : List String := []
deriving DecidableEq, Repr

/-- `agent_config["safety"]["approval_policy"]`. -/
structure ApprovalPolicyCfg where
  write_operations : String := "require_approval"
deriving DecidableEq, Repr

/-- `agent_config["safety"]`. -/
structure AgentSafetyCfg where
  approval_policy : ApprovalPolicyCfg := {}
deriving DecidableEq, Repr

/-- The slice of an agent config that `check_permission` and the
execution layer read. -/
structure AgentConfigPol where
  risk_level : String := "medium"
  safety : AgentSafetyCfg := {}
deriving DecidableEq, Repr

/-- A problem entry of `world_model["confirmed_problems"]`, restricted to
the key the scorer reads. -/
structure WMProblem where
  domain : Option String := none
deriving DecidableEq, Repr

/-- `preferences["notifications"]`. -/
structure NotificationPrefs where
  frequency : String := "moderate"
deriving DecidableEq, Repr

/-- `preferences["automation"]`. -/
structure AutomationPrefs where
  acceptance : String := "moderate"
deriving DecidableEq, Repr

/-- `world_model["preferences"]`. -/
structure Preferences where
  notifications : NotificationPrefs := {}
  automation : AutomationPrefs := {}
deriving DecidableEq, Repr

/-- One entry of `world_model["history"][domain]`, restricted to the keys
the baseline calculator reads. -/
structure HistoryEntry where
  avg_response_time : Option ℚ := none
  avg_review_time_hours : Option ℚ := none
  avg_sleep_hours : Option ℚ := none
  delivery_spending : Option ℚ := none
deriving DecidableEq, Repr

/-- The slice of the World Model document that the verified functions
read. -/
structure WorldModel where
  policy : PolicyCfg := {}
  preferences : Preferences := {}
  confirmed_problems : List WMProblem := []
  history : List (String × List HistoryEntry) := []
deriving DecidableEq, Repr

/-- The result of `check_permission` (the Korean `reason` strings are
abbreviated to English tags; no claim depends on their content). -/
structure PermissionResult where
  allowed : Bool
  requires_approval : Bool
  reason : String
deriving DecidableEq, Repr

/-- `check_permission` from `policy.py` (the `tool` argument is unused by
the source and omitted). -/
def check_permission (action : String) (world_model : WorldModel)
    (agent_config : Option AgentConfigPol) : PermissionResult :=
  let policy := world_model.policy
  let default_write_block := policy.default_write_block
  let action_type := _classify_action action
  if (action_type = .write ∨ action_type = .delete) ∧ default_write_block then
    ⟨false, true, "write blocked by default"⟩
  else if action ∈ policy.action_allowlist then
    ⟨true, false, "on allowlist"⟩
  else if action ∈ policy.forbidden_actions then
    ⟨false, false, "on forbidden list"⟩
  else
    let fallback : PermissionResult :=
      if action_type = .read then
        ⟨true, false, "reads allowed"⟩
      else
        ⟨true, true, "unknown action needs approval"⟩
    match agent_config with
    | some cfg =>
      if action_type = .write then
        let write_policy := cfg.safety.approval_policy.write_operations
        if write_policy = "block" then
          ⟨false, false, "risk level blocks writes"⟩
        else if write_policy = "require_approval" then
          ⟨true, true, "writes need approval"⟩
        else
          fallback
      else
        fallback
    | none => fallback

/-! ## Problem scoring (`src/utils/problem_scoring.py`) -/

/-- `gap["evidence"]`, restricted to the keys the scorer reads. -/
structure Evidence where
  trend : Option String := none
  recurrence_count : Option ℤ := none
  current_value : Option ℚ := none
deriving DecidableEq, Repr

/-- A gap record, restricted to the keys the scorer reads; `Option`
fields mirror `.get` reads whose defaults are applied at the use site. -/
structure Gap where
  type : Option String := none
  domain : Option String := none
  severity : Option String := none
  evidence : Evidence := {}
deriving DecidableEq, Repr

/-- The scorer context `{day, time}`.  `hour` stands for
`int(context.get("time", "12:00").split(":")[0])`; the Python default
corresponds to `hour = 12`. -/
structure ScoreContext where
  day : Option String := none
  hour : ℤ := 12
deriving DecidableEq, Repr

/-- The baseline record returned by the baseline calculator.
`calculated_at` is in epoch seconds and `metrics` an association list of
the numeric metric fields. -/
structure Baseline where
  baseline_value : ℚ
  baseline_period : String
  calculated_at : ℚ
  metrics : List (String × ℚ)
deriving DecidableEq, Repr

/-- `_calculate_persistence` (its `baseline_data` parameter is unused by
the source). -/
def _calculate_persistence (gap : Gap) (_baseline_data : Option Baseline) : ℚ :=
  let evidence := gap.evidence
  let fromRecurrence : ℚ :=
    match evidence.recurrence_count with
    | some count =>
      if count ≥ 3 then 0.9
      else if count ≥ 2 then 0.6
      else 0.3
    | none => 0.2
  match evidence.trend with
  | some trend =>
    if trend ∈ ["increasing", "decreasing", "stable"] then 0.8 else fromRecurrence
  | none => fromRecurrence

/-- `severity_map.get(severity, 0.5)` shared by `_calculate_severity`. -/
def severityBase (severity : String) : ℚ :=
  if severity = "high" then 0.9
  else if severity = "medium" then 0.6
  else if severity = "low" then 0.3
  else 0.5

/-- `_calculate_severity`. -/
def _calculate_severity (gap : Gap) (baseline_data : Option Baseline) : ℚ :=
  let severity := gap.severity.getD "medium"
  let base_score := severityBase severity
  match baseline_data with
  | some baseline =>
    match gap.evidence.current_value with
    | some current_value =>
      if baseline.baseline_value > 0 then
        let ratio := |current_value - baseline.baseline_value| / baseline.baseline_value
        if ratio ≥ 0.5 then min 1.0 (base_score + 0.2)
        else if ratio ≥ 0.2 then base_score
        else max 0.3 (base_score - 0.2)
      else base_score
    | none => base_score
  | none => base_score

/-- `_calculate_context_importance`. -/
def _calculate_context_importance (gap : Gap) (context : ScoreContext)
    (world_model : WorldModel) : ℚ :=
  let hour := context.hour
  let time_score : ℚ := if 9 ≤ hour ∧ hour ≤ 18 then 0.7 else 0.4
  let day := pyLower (context.day.getD "")
  let day_score : ℚ :=
    if day ∈ ["monday", "tuesday", "wednesday", "thursday", "friday"] then 0.8 else 0.5
  let gap_domain := gap.domain.getD ""
  let domain_importance : ℚ :=
    if world_model.confirmed_problems.any (fun p => p.domain = some gap_domain) then 0.8
    else 0.5
  (time_score + day_score + domain_importance) / 3

/-- `_calculate_preference_violation`. -/
def _calculate_preference_violation (gap : Gap) (world_model : WorldModel) : ℚ :=
  let preferences := world_model.preferences
  let gap_type := gap.type.getD ""
  let notification_pref := preferences.notifications.frequency
  if gap_type = "notification_overload" ∧ notification_pref = "minimal" then 0.9
  else
    let automation_pref := preferences.automation.acceptance
    if gap_type = "automation_needed" ∧ automation_pref = "low" then 0.7
    else 0.1

/-- `_calculate_unsolved_cost`. -/
def _calculate_unsolved_cost (gap : Gap) (_world_model : WorldModel) : ℚ :=
  let severity := gap.severity.getD "medium"
  let gap_type := gap.type.getD ""
  let base_cost : ℚ :=
    if severity = "high" then 0.8
    else if severity = "medium" then 0.5
    else if severity = "low" then 0.2
    else 0.5
  let type_cost : ℚ :=
    if gap_type = "response_time" then 0.7
    else if gap_type = "missed_deadline" then 0.9
    else if gap_type = "visibility" then 0.6
    else if gap_type = "pattern_deviation" then 0.4
    else 0.5
  (base_cost + type_cost) / 2

/-- `calculate_problem_score`.  The Python function synthesizes a clock
context when none is passed; the context is a parameter here. -/
def calculate_problem_score (gap : Gap) (world_model : WorldModel)
    (baseline_data : Option Baseline) (context : ScoreContext) : ℚ :=
  let persistence_score := _calculate_persistence gap baseline_data
  let severity_score := _calculate_severity gap baseline_data
  let context_score := _calculate_context_importance gap context world_model
  let preference_violation_score := _calculate_preference_violation gap world_model
  let cost_score := _calculate_unsolved_cost gap world_model
  let total_score :=
    persistence_score * 0.25 +
    severity_score * 0.25 +
    context_score * 0.20 +
    preference_violation_score * 0.15 +
    cost_score * 0.15
  min 1.0 (max 0.0 total_score)

/-- A gap after `filter_gaps_by_score` attached `gap["problem_score"]`. -/
structure ScoredGap where
  gap : Gap
  problem_score : ℚ
deriving DecidableEq, Repr

/-- The descending-score comparator of `filtered.sort(key=..., reverse=True)`. -/
def scoreDesc (a b : ScoredGap) : Bool :=
  decide (b.problem_score ≤ a.problem_score)

/-- `filter_gaps_by_score`: score every gap, keep those with score at or
above the threshold, sort by score descending (Python `list.sort` is
stable; `List.mergeSort` is the matching stable sort). -/
def filter_gaps_by_score (gaps : List Gap) (world_model : WorldModel)
    (threshold : ℚ) (baseline_data : Option Baseline) (context : ScoreContext) :
    List ScoredGap :=
  let scored := gaps.map (fun gap =>
    ⟨gap, calculate_problem_score gap world_model baseline_data context⟩ : Gap → ScoredGap)
  let filtered := scored.filter (fun sg => threshold ≤ sg.problem_score)
  filtered.mergeSort scoreDesc

/-! ## Theorems for claims C1, C2, C5, C6 -/

theorem can_transition_iff (c t : String) :
    can_transition c t = true ↔
      ∃ cu ta, ProblemStatus.ofString c = some cu ∧ ProblemStatus.ofString t = some ta ∧
        claimEdge cu ta = true := by
  unfold can_transition
  cases hc : ProblemStatus.ofString c with
  | none => simp [hc]
  | some cu =>
    cases ht : ProblemStatus.ofString t with
    | none => simp [ht]
    | some ta =>
      have hedge : (ALLOWED_TRANSITIONS cu).contains ta = claimEdge cu ta := by
        cases cu <;> cases ta <;> decide
      constructor
      · intro h
        refine ⟨cu, ta, rfl, rfl, ?_⟩
        rw [← hedge]
        exact h
      · rintro ⟨cu2, ta2, hcu, hta, he⟩
        cases hcu
        cases hta
        show (ALLOWED_TRANSITIONS cu).contains ta = true
        rw [hedge]
        exact he

theorem transition_fst_eq (p : Problem) (t : String) (ua r : Option String) (now : ℚ) :
    (transition p t ua r now).1 =
      (if can_transition (p.status.getD "candidate") t then none
       else some ⟨p.status.getD "candidate", t⟩) := by
  unfold transition
  by_cases h : can_transition (p.status.getD "candidate") t <;> simp [h]

theorem transition_snd_of_illegal (p : Problem) (t : String) (ua r : Option String) (now : ℚ)
    (h : ¬ can_transition (p.status.getD "candidate") t) :
    (transition p t ua r now).2 = p := by
  unfold transition
  simp [h]

/-- C1: `ProblemStateMachine.transition` succeeds exactly when the pair
(current status, target status) parses to an edge of the allowed graph —
Candidate→Proposed, Proposed→{Confirmed, Rejected, Snoozed},
Snoozed→{Candidate, Rejected}, Confirmed→Archived, with Rejected and
Archived terminal — and any disallowed attempt returns the
illegal-transition error (Python `ValueError`, the spec's
`IllegalTransition`) with the problem record unchanged. -/
theorem transition_iff_allowed_edge (p : Problem) (t : String)
    (ua r : Option String) (now : ℚ) :
    ((transition p t ua r now).1 = none ↔
      ∃ cu ta, ProblemStatus.ofString (p.status.getD "candidate") = some cu ∧
        ProblemStatus.ofString t = some ta ∧ claimEdge cu ta = true) ∧
    ((transition p t ua r now).1.isSome →
      (transition p t ua r now).1 = some ⟨p.status.getD "candidate", t⟩ ∧
      (transition p t ua r now).2 = p) := by
  constructor
  · rw [transition_fst_eq]
    by_cases h : can_transition (p.status.getD "candidate") t
    · simp only [if_pos h]
      simpa using (can_transition_iff _ _).mp h
    · simp only [if_neg h]
      constructor
      · intro hcontra; cases hcontra
      · intro he
        exact absurd ((can_transition_iff _ _).mpr he) h
  · intro hsome
    by_cases h : can_transition (p.status.getD "candidate") t
    · rw [transition_fst_eq, if_pos h] at hsome
      cases hsome
    · exact ⟨by rw [transition_fst_eq, if_neg h], transition_snd_of_illegal p t ua r now h⟩

/-- Witness for C1 at a concrete input: a Rejected problem cannot move to
Confirmed, the error is returned, and the record is unchanged. -/
theorem transition_iff_allowed_edge_witness :
    (transition { status := some "rejected" } "confirmed" none none 0).1 =
      some ⟨"rejected", "confirmed"⟩ ∧
    (transition { status := some "rejected" } "confirmed" none none 0).2 =
      { status := some "rejected" } :=
  (transition_iff_allowed_edge { status := some "rejected" } "confirmed" none none 0).2
    (by decide)

/-- A world-model fixture for the C2 counterexample: the default write
block is on and the write action is on the allowlist. -/
def wmC2 : WorldModel :=
  { policy := { default_write_block := true
                action_allowlist := ["write_file"]
                forbidden_actions := [] } }

/-- C2 counterexample: `"write_file"` is on the action allowlist and
`default_write_block` is enabled, yet `check_permission` blocks it —
the write block is checked *before* the allowlist, so a write is blocked
even when it appears in the allowlist, contrary to the claim. -/
theorem check_permission_allowlisted_write_blocked :
    "write_file" ∈ wmC2.policy.action_allowlist ∧
    wmC2.policy.default_write_block = true ∧
    _classify_action "write_file" = .write ∧
    (check_permission "write_file" wmC2 none).allowed = false := by
  decide

/-- C2 amended: with `default_write_block` enabled every action classified
write or delete is blocked (flagged for approval) regardless of the
allowlist; an allowlisted action not caught by that write block is
allowed without approval; a forbidden action is denied only when it is
not allowlisted (and the write block itself also denies); and an action
classified read is allowed whenever it is not on the forbidden list. -/
theorem check_permission_amended (action : String) (wm : WorldModel)
    (cfg : Option AgentConfigPol) :
    ((_classify_action action = .write ∨ _classify_action action = .delete) ∧
        wm.policy.default_write_block →
      (check_permission action wm cfg).allowed = false ∧
      (check_permission action wm cfg).requires_approval = true) ∧
    (action ∈ wm.policy.action_allowlist →
      ¬((_classify_action action = .write ∨ _classify_action action = .delete) ∧
        wm.policy.default_write_block) →
      (check_permission action wm cfg).allowed = true ∧
      (check_permission action wm cfg).requires_approval = false) ∧
    (action ∈ wm.policy.forbidden_actions → action ∉ wm.policy.action_allowlist →
      (check_permission action wm cfg).allowed = false) ∧
    (_classify_action action = .read → action ∉ wm.policy.forbidden_actions →
      (check_permission action wm cfg).allowed = true) := by
  refine ⟨?_, ?_, ?_, ?_⟩
  · intro h
    unfold check_permission
    rw [if_pos h]
    exact ⟨rfl, rfl⟩
  · intro hmem hng
    unfold check_permission
    rw [if_neg hng, if_pos hmem]
    exact ⟨rfl, rfl⟩
  · intro hforb hnal
    unfold check_permission
    by_cases hg : (_classify_action action = .write ∨ _classify_action action = .delete) ∧
        wm.policy.default_write_block
    · rw [if_pos hg]
    · rw [if_neg hg, if_neg hnal, if_pos hforb]
  · intro hread hnf
    have hng : ¬((_classify_action action = .write ∨ _classify_action action = .delete) ∧
        wm.policy.default_write_block) := by
      rintro ⟨hwd | hwd, _⟩ <;> rw [hread] at hwd <;> cases hwd
    unfold check_permission
    rw [if_neg hng]
    by_cases hal : action ∈ wm.policy.action_allowlist
    · rw [if_pos hal]
    · rw [if_neg hal, if_neg hnf]
      have hnw : ¬ _classify_action action = ActionType.write := by
        rw [hread]; intro hc; cases hc
      cases cfg with
      | none => simp [hread]
      | some c => simp [hread, hnw]

/-- Witness for C2 amended at concrete inputs: a read action not on any
list is allowed, and a forbidden non-allowlisted action is denied. -/
theorem check_permission_amended_witness :
    (check_permission "read_emails" { policy := {} } none).allowed = true ∧
    (check_permission "purge_all"
      { policy := { forbidden_actions := ["purge_all"] } } none).allowed = false :=
  ⟨(check_permission_amended "read_emails" { policy := {} } none).2.2.2
      (by decide) (by decide),
   (check_permission_amended "purge_all"
      { policy := { forbidden_actions := ["purge_all"] } } none).2.2.1
      (by decide) (by decide)⟩


/-- The trend condition of `_calculate_persistence`: a `trend` key is
present and its value is one of increasing/decreasing/stable. -/
def trendRecognized (e : Evidence) : Bool :=
  match e.trend with
  | some trend => trend ∈ ["increasing", "decreasing", "stable"]
  | none => false

theorem persistence_eq (gap : Gap) (b : Option Baseline) :
    _calculate_persistence gap b =
      if trendRecognized gap.evidence then (0.8 : ℚ)
      else
        match gap.evidence.recurrence_count with
        | some c => if 3 ≤ c then (0.9 : ℚ) else if 2 ≤ c then 0.6 else 0.3
        | none => 0.2 := by
  unfold _calculate_persistence trendRecognized
  cases htr : gap.evidence.trend with
  | none => simp [htr]
  | some trend =>
    by_cases hmem : trend ∈ ["increasing", "decreasing", "stable"]
    · simp [htr, hmem]
    · simp [htr, hmem]

/-- A gap used as the C6 counterexample: a recognized trend together with
`recurrence_count = 3`. -/
def gapC6 : Gap :=
  { evidence := { trend := some "increasing", recurrence_count := some 3 } }

/-- C6 counterexample: the gap has `recurrence_count = 3`, so the claim
requires persistence `0.9`, but the source checks `evidence.trend` first
and returns `0.8`. -/
theorem persistence_trend_overrides_recurrence :
    gapC6.evidence.recurrence_count = some 3 ∧
    _calculate_persistence gapC6 none = 0.8 ∧
    (0.8 : ℚ) ≠ 0.9 := by
  refine ⟨rfl, ?_, by norm_num⟩
  rw [persistence_eq]
  norm_num [trendRecognized, gapC6]

/-- C6 amended: persistence is `0.8` when a recognized trend is present
(this branch is checked first and wins over recurrence); otherwise it is
`0.9` when `recurrence_count ≥ 3`, `0.6` when `≥ 2`, `0.3` when the key
is present with a smaller count, and `0.2` when the key is absent. -/
theorem persistence_cases (gap : Gap) (b : Option Baseline) :
    (trendRecognized gap.evidence = true → _calculate_persistence gap b = 0.8) ∧
    (trendRecognized gap.evidence = false →
      (∀ c : ℤ, gap.evidence.recurrence_count = some c → 3 ≤ c →
        _calculate_persistence gap b = 0.9) ∧
      (∀ c : ℤ, gap.evidence.recurrence_count = some c → 2 ≤ c → c < 3 →
        _calculate_persistence gap b = 0.6) ∧
      (∀ c : ℤ, gap.evidence.recurrence_count = some c → c < 2 →
        _calculate_persistence gap b = 0.3) ∧
      (gap.evidence.recurrence_count = none → _calculate_persistence gap b = 0.2)) := by
  rw [persistence_eq]
  constructor
  · intro htrue
    rw [if_pos htrue]
  · intro hfalse
    rw [if_neg (by simp [hfalse])]
    refine ⟨?_, ?_, ?_, ?_⟩
    · intro c hc h3
      simp [hc, if_pos h3]
    · intro c hc h2 h3
      have hn3 : ¬ (3 : ℤ) ≤ c := by omega
      simp [hc, hn3, h2]
    · intro c hc h2
      have hn3 : ¬ (3 : ℤ) ≤ c := by omega
      have hn2 : ¬ (2 : ℤ) ≤ c := by omega
      simp [hc, hn3, hn2]
    · intro hc
      simp [hc]

/-- Witness for C6 amended at concrete gaps: no trend and no recurrence
key gives `0.2`; no trend and `recurrence_count = 1` gives `0.3`. -/
theorem persistence_cases_witness :
    _calculate_persistence { evidence := {} } none = 0.2 ∧
    _calculate_persistence { evidence := { recurrence_count := some 1 } } none = 0.3 :=
  ⟨((persistence_cases { evidence := {} } none).2 rfl).2.2.2 rfl,
   ((persistence_cases { evidence := { recurrence_count := some 1 } } none).2
      rfl).2.2.1 1 rfl (by norm_num)⟩

theorem problem_score_shape (gap : Gap) (wm : WorldModel)
    (b : Option Baseline) (ctx : ScoreContext) :
    calculate_problem_score gap wm b ctx =
      min 1.0 (max 0.0
        (_calculate_persistence gap b * 0.25 +
         _calculate_severity gap b * 0.25 +
         _calculate_context_importance gap ctx wm * 0.20 +
         _calculate_preference_violation gap wm * 0.15 +
         _calculate_unsolved_cost gap wm * 0.15)) := rfl

/-- C5: every problem score lies in `[0, 1]`, and `filter_gaps_by_score`
returns exactly the scored gaps whose score is at least the threshold
(as a permutation of that filtered list) in descending score order. -/
theorem problem_score_bounds_and_filter (gap : Gap) (wm : WorldModel)
    (b : Option Baseline) (ctx : ScoreContext) (gaps : List Gap) (threshold : ℚ) :
    (0 ≤ calculate_problem_score gap wm b ctx ∧ calculate_problem_score gap wm b ctx ≤ 1) ∧
    (filter_gaps_by_score gaps wm threshold b ctx).Perm
      ((gaps.map fun g => (⟨g, calculate_problem_score g wm b ctx⟩ : ScoredGap)).filter
        (fun sg => threshold ≤ sg.problem_score)) ∧
    (filter_gaps_by_score gaps wm threshold b ctx).Pairwise
      (fun a b2 => b2.problem_score ≤ a.problem_score) := by
  have hbox : ∀ x : ℚ, 0 ≤ min 1.0 (max 0.0 x) ∧ min 1.0 (max 0.0 x) ≤ 1 := by
    intro x
    constructor
    · exact le_min (by norm_num) (le_trans (by norm_num) (le_max_left 0.0 x))
    · exact le_trans (min_le_left _ _) (by norm_num)
  refine ⟨?_, ?_, ?_⟩
  · rw [problem_score_shape]
    exact hbox _
  · unfold filter_gaps_by_score
    exact List.mergeSort_perm _ _
  · unfold filter_gaps_by_score
    have htrans : ∀ a b2 c : ScoredGap, scoreDesc a b2 → scoreDesc b2 c → scoreDesc a c := by
      intro a b2 c hab hbc
      simp only [scoreDesc, decide_eq_true_eq] at *
      exact le_trans hbc hab
    have htotal : ∀ a b2 : ScoredGap, scoreDesc a b2 || scoreDesc b2 a := by
      intro a b2
      simp only [scoreDesc, Bool.or_eq_true, decide_eq_true_eq]
      exact le_total b2.problem_score a.problem_score
    have h := List.sorted_mergeSort htrans htotal
      ((gaps.map fun g => (⟨g, calculate_problem_score g wm b ctx⟩ : ScoredGap)).filter
        (fun sg => threshold ≤ sg.problem_score))
    exact h.imp (fun hle => by simpa [scoreDesc] using hle)

/-! ## Baseline calculator (`src/utils/baseline_calculator.py`) -/

/-- An email record, restricted to the keys the verified code reads. -/
structure Email where
  id : Option String := none
  hidden_priority : Option String := none
  applied_label : Option String := none
deriving DecidableEq, Repr

/-- `current_state["data"]`, restricted to what the baseline calculator
reads (for PRs and health records only the length is read, so only the
counts are carried). -/
structure CSData where
  emails : List Email := []
  prs_count : ℕ := 0
  records_count : ℕ := 0
  average_sleep_hours : Option ℚ := none
  category_spending : List (String × ℚ) := []
deriving DecidableEq, Repr

/-- A current state as the baseline calculator sees it. -/
structure CurrentState where
  data : CSData := {}
deriving DecidableEq, Repr

/-- Python slice `l[-k:]` (for `k = 0` Python yields the whole list). -/
def pySliceLast (l : List α) (k : ℕ) : List α :=
  if k = 0 then l else l.drop (l.length - k)

/-- `_calculate_email_baseline` (the Korean period string `"N주"` is
rendered `"N weeks"`). -/
def _calculate_email_baseline (current_state : CurrentState)
    (history : List HistoryEntry) (weeks : ℕ) (now : ℚ) : Baseline :=
  let emails := current_state.data.emails
  let important_emails := emails.filter (fun e => e.hidden_priority = some "high")
  if important_emails ≠ [] then
    let response_times := (pySliceLast history (weeks * 7)).filterMap
      (fun entry => entry.avg_response_time)
    let avg_response_time : ℚ :=
      if history ≠ [] ∧ response_times ≠ [] then
        response_times.sum / response_times.length
      else 1.5
    { baseline_value := avg_response_time
      baseline_period := toString weeks ++ " weeks"
      calculated_at := now
      metrics := [("avg_response_time_hours", avg_response_time),
                  ("important_email_count", (important_emails.length : ℚ)),
                  ("sample_size", (history.length : ℚ))] }
  else
    { baseline_value := 0
      baseline_period := toString weeks ++ " weeks"
      calculated_at := now
      metrics := [] }

/-- `_calculate_github_baseline`. -/
def _calculate_github_baseline (current_state : CurrentState)
    (history : List HistoryEntry) (weeks : ℕ) (now : ℚ) : Baseline :=
  let review_times := (pySliceLast history (weeks * 7)).filterMap
    (fun entry => entry.avg_review_time_hours)
  let avg_review_time : ℚ :=
    if history ≠ [] ∧ review_times ≠ [] then
      review_times.sum / review_times.length
    else 24.0
  { baseline_value := avg_review_time
    baseline_period := toString weeks ++ " weeks"
    calculated_at := now
    metrics := [("avg_review_time_hours", avg_review_time),
                ("pr_count", (current_state.data.prs_count : ℚ)),
                ("sample_size", (history.length : ℚ))] }

/-- `_calculate_health_baseline`. -/
def _calculate_health_baseline (current_state : CurrentState)
    (history : List HistoryEntry) (weeks : ℕ) (now : ℚ) : Baseline :=
  let sleep_hours := (pySliceLast history (weeks * 7)).filterMap
    (fun entry => entry.avg_sleep_hours)
  let avg_sleep : ℚ :=
    if history ≠ [] ∧ sleep_hours ≠ [] then
      sleep_hours.sum / sleep_hours.length
    else current_state.data.average_sleep_hours.getD 0
  { baseline_value := avg_sleep
    baseline_period := toString weeks ++ " weeks"
    calculated_at := now
    metrics := [("avg_sleep_hours", avg_sleep),
                ("record_count", (current_state.data.records_count : ℚ)),
                ("sample_size", (history.length : ℚ))] }

/-- `_calculate_finance_baseline` (the Korean category key is kept). -/
def _calculate_finance_baseline (current_state : CurrentState)
    (history : List HistoryEntry) (weeks : ℕ) (now : ℚ) : Baseline :=
  let delivery_spending := (alGet "배달앱" current_state.data.category_spending).getD 0
  let spending_values := (pySliceLast history (weeks * 7)).filterMap
    (fun entry => entry.delivery_spending)
  let avg_spending : ℚ :=
    if history ≠ [] ∧ spending_values ≠ [] then
      spending_values.sum / spending_values.length
    else delivery_spending
  { baseline_value := avg_spending
    baseline_period := toString weeks ++ " weeks"
    calculated_at := now
    metrics := [("avg_delivery_spending", avg_spending),
                ("current_spending", delivery_spending),
                ("sample_size", (history.length : ℚ))] }

/-- `calculate_baseline`: dispatch on the four supported domains, else
`None`. -/
def calculate_baseline (domain : String) (current_state : CurrentState)
    (world_model : WorldModel) (weeks : ℕ) (now : ℚ) : Option Baseline :=
  let history := (alGet domain world_model.history).getD []
  if domain = "email" then
    some (_calculate_email_baseline current_state history weeks now)
  else if domain = "github" then
    some (_calculate_github_baseline current_state history weeks now)
  else if domain = "health" then
    some (_calculate_health_baseline current_state history weeks now)
  else if domain = "finance" then
    some (_calculate_finance_baseline current_state history weeks now)
  else
    none

/-- C7 counterexample: for domain `github` with an *empty* history the
calculator still returns a record (from the 24-hour default), not null,
contrary to the claim that an empty history yields null. -/
theorem baseline_github_empty_history_not_null :
    (alGet "github" ({} : WorldModel).history).getD [] = [] ∧
    (calculate_baseline "github" {} {} 3 0).isSome = true ∧
    (calculate_baseline "github" {} {} 3 0).map (fun b => b.baseline_value) =
      some 24.0 := by
  refine ⟨rfl, by decide, ?_⟩
  have h1 : ("github" : String) ≠ "email" := by decide
  norm_num [calculate_baseline, _calculate_github_baseline, pySliceLast, alGet, h1]

/-- C7 amended: `calculate_baseline` returns null exactly when the domain
is none of email/github/health/finance; for every supported domain it
returns a `{baseline_value, baseline_period, calculated_at, metrics}`
record even when the history is empty (falling back to defaults or
current-state values); and the Problem Scorer's severity signal skips
the baseline shift when handed null. -/
theorem baseline_none_iff_unsupported (domain : String) (cs : CurrentState)
    (wm : WorldModel) (weeks : ℕ) (now : ℚ) :
    (calculate_baseline domain cs wm weeks now = none ↔
      domain ∉ ["email", "github", "health", "finance"]) ∧
    (∀ gap : Gap, _calculate_severity gap none = severityBase (gap.severity.getD "medium")) := by
  constructor
  · unfold calculate_baseline
    by_cases h1 : domain = "email"
    · simp [h1]
    · by_cases h2 : domain = "github"
      · simp [h2]
      · by_cases h3 : domain = "health"
        · simp [h3]
        · by_cases h4 : domain = "finance"
          · simp [h4]
          · simp [h1, h2, h3, h4]
  · intro gap
    rfl

/-! ## Agent conflict manager (`src/utils/agent_conflict_manager.py`) -/

/-- An action config entry `{type, do, requires_approval, resource}` as
the conflict manager and the execution layer read it (the Python key
`do` is rendered `doAct`, `do` being a Lean keyword). -/
structure ActionCfg where
  type : Option String := none
  doAct : Option String := none
  requires_approval : Bool := false
  resource : Option String := none
deriving DecidableEq, Repr

/-- One entry of `active_locks`. -/
structure LockInfo where
  agent_id : String
  action : ActionCfg
  acquired_at : ℤ
deriving DecidableEq, Repr

/-- The `AgentConflictManager` state: `active_locks` and
`agent_priorities`. -/
structure AgentConflictManager where
  active_locks : List (String × LockInfo) := []
  agent_priorities : List (String × ℤ) := []
deriving DecidableEq, Repr

/-- `AgentConflictManager.release_lock`: drop the lock entry, then drop
the holder's priority entry when present. -/
def release_lock (m : AgentConflictManager) (resource_id : String) :
    AgentConflictManager :=
  match alGet resource_id m.active_locks with
  | some lock =>
    { active_locks := alErase resource_id m.active_locks
      agent_priorities :=
        match alGet lock.agent_id m.agent_priorities with
        | some _ => alErase lock.agent_id m.agent_priorities
        | none => m.agent_priorities }
  | none => m

/-- The shared tail of `acquire_lock`: record the lock under the
resource and the requester's priority under the agent. -/
def installLock (m : AgentConflictManager) (agent_id resource_id : String)
    (action : ActionCfg) (priority : ℤ) (now : ℤ) : AgentConflictManager :=
  { active_locks := alInsert resource_id ⟨agent_id, action, now⟩ m.active_locks
    agent_priorities := alInsert agent_id priority m.agent_priorities }

/-- `AgentConflictManager.acquire_lock`: fail when the resource is held
with an existing priority at least as high; preempt (release) the holder
when the requested priority is strictly higher; then install the lock
and the requester's priority. -/
def acquire_lock (m : AgentConflictManager) (agent_id resource_id : String)
    (action : ActionCfg) (priority : ℤ) (now : ℤ) :
    Bool × AgentConflictManager :=
  match alGet resource_id m.active_locks with
  | some existing_lock =>
    if priority > (alGet existing_lock.agent_id m.agent_priorities).getD 5 then
      (true, installLock (release_lock m resource_id) agent_id resource_id action priority now)
    else
      (false, m)
  | none =>
    (true, installLock m agent_id resource_id action priority now)

theorem release_lock_prios_lookup (m : AgentConflictManager) (rid : String)
    (lock : LockInfo) (hl : alGet rid m.active_locks = some lock) :
    alGet lock.agent_id (release_lock m rid).agent_priorities = none := by
  unfold release_lock
  rw [hl]
  show alGet lock.agent_id
    (match alGet lock.agent_id m.agent_priorities with
     | some _ => alErase lock.agent_id m.agent_priorities
     | none => m.agent_priorities) = none
  cases hpri : alGet lock.agent_id m.agent_priorities with
  | none => exact hpri
  | some p => simp [alGet_alErase_self]

/-- C8: `acquire_lock` succeeds iff the resource is unlocked or the
requested priority strictly exceeds the holder's recorded priority
(default 5); on success the requester's lock and priority are installed
and a preempted incumbent's priority entry is gone; on failure the whole
manager state — in particular the incumbent's lock — is unchanged. -/
theorem acquire_lock_spec (m : AgentConflictManager) (agent_id resource_id : String)
    (action : ActionCfg) (priority : ℤ) (now : ℤ) :
    ((acquire_lock m agent_id resource_id action priority now).1 = true ↔
      alGet resource_id m.active_locks = none ∨
      ∃ lock, alGet resource_id m.active_locks = some lock ∧
        (alGet lock.agent_id m.agent_priorities).getD 5 < priority) ∧
    ((acquire_lock m agent_id resource_id action priority now).1 = true →
      alGet resource_id
          (acquire_lock m agent_id resource_id action priority now).2.active_locks =
        some ⟨agent_id, action, now⟩ ∧
      alGet agent_id
          (acquire_lock m agent_id resource_id action priority now).2.agent_priorities =
        some priority ∧
      (∀ lock, alGet resource_id m.active_locks = some lock → lock.agent_id ≠ agent_id →
        alGet lock.agent_id
            (acquire_lock m agent_id resource_id action priority now).2.agent_priorities =
          none)) ∧
    ((acquire_lock m agent_id resource_id action priority now).1 = false →
      (acquire_lock m agent_id resource_id action priority now).2 = m) := by
  cases hl : alGet resource_id m.active_locks with
  | none =>
    have hstep : acquire_lock m agent_id resource_id action priority now =
        (true, installLock m agent_id resource_id action priority now) := by
      unfold acquire_lock
      rw [hl]
    refine ⟨?_, ?_, ?_⟩
    · rw [hstep]
      simp
    · intro _
      rw [hstep]
      refine ⟨?_, ?_, ?_⟩
      · simp [installLock, alGet_alInsert_self]
      · simp [installLock, alGet_alInsert_self]
      · intro lock hlock
        cases hlock
    · intro hfail
      rw [hstep] at hfail
      simp at hfail
  | some lock =>
    by_cases hp : priority > (alGet lock.agent_id m.agent_priorities).getD 5
    · have hstep : acquire_lock m agent_id resource_id action priority now =
          (true, installLock (release_lock m resource_id) agent_id resource_id
            action priority now) := by
        unfold acquire_lock
        rw [hl]
        show (if priority > (alGet lock.agent_id m.agent_priorities).getD 5 then
            (true, installLock (release_lock m resource_id) agent_id resource_id
              action priority now)
          else (false, m)) = _
        rw [if_pos hp]
      refine ⟨?_, ?_, ?_⟩
      · rw [hstep]
        simp only [true_iff]
        exact Or.inr ⟨lock, rfl, hp⟩
      · intro _
        rw [hstep]
        refine ⟨?_, ?_, ?_⟩
        · simp [installLock, alGet_alInsert_self]
        · simp [installLock, alGet_alInsert_self]
        · intro lock2 hlock2 hne
          cases hlock2
          simp only [installLock]
          rw [alGet_alInsert_ne _ _ _ _ hne]
          exact release_lock_prios_lookup m resource_id lock hl
      · intro hfail
        rw [hstep] at hfail
        simp at hfail
    · have hstep : acquire_lock m agent_id resource_id action priority now = (false, m) := by
        unfold acquire_lock
        rw [hl]
        show (if priority > (alGet lock.agent_id m.agent_priorities).getD 5 then
            (true, installLock (release_lock m resource_id) agent_id resource_id
              action priority now)
          else (false, m)) = _
        rw [if_neg hp]
      refine ⟨?_, ?_, ?_⟩
      · rw [hstep]
        simp only [Bool.false_eq_true, false_iff]
        rintro (h0 | ⟨lock2, hlock2, hlt⟩)
        · cases h0
        · cases hlock2
          exact hp hlt
      · intro htrue
        rw [hstep] at htrue
        simp at htrue
      · intro _
        rw [hstep]

/-- Witness for C8 at concrete inputs: agent A (priority 9) preempts the
incumbent agent B (priority 5) on `email_42`: the call succeeds, A's lock
and priority are installed, and B's priority entry is removed. -/
theorem acquire_lock_spec_witness :
    alGet "email_42"
        (acquire_lock
          { active_locks := [("email_42", ⟨"agentB", {}, 0⟩)]
            agent_priorities := [("agentB", 5)] }
          "agentA" "email_42" {} 9 1).2.active_locks =
      some ⟨"agentA", {}, 1⟩ ∧
    alGet "agentB"
        (acquire_lock
          { active_locks := [("email_42", ⟨"agentB", {}, 0⟩)]
            agent_priorities := [("agentB", 5)] }
          "agentA" "email_42" {} 9 1).2.agent_priorities =
      none := by
  have h := (acquire_lock_spec
    { active_locks := [("email_42", ⟨"agentB", {}, 0⟩)]
      agent_priorities := [("agentB", 5)] }
    "agentA" "email_42" {} 9 1).2.1 (by decide)
  exact ⟨h.1, h.2.2 ⟨"agentB", {}, 0⟩ (by decide) (by decide)⟩

/-! ## Execution mini-runtime (`src/utils/execution_utils.py`,
`src/layers/execution.py`) -/

/-- The result record of `check_rate_limit`. -/
structure RateResult where
  allowed : Bool
  retry_after : Option ℤ
  remaining : ℤ
deriving DecidableEq, Repr

/-- `check_rate_limit` for one resource bucket: `tracker` holds the
bucket's request timestamps (integer epoch seconds — the code relies
only on their ordering and on shifts by the window length); drop timestamps at or
before `now - window_seconds`, refuse with a backoff when the in-window
count has reached `max_requests`, otherwise record the request.  (With
`max_requests = 0` and an empty bucket the Python `min` would raise; the
`getD 0` stands for that unreachable case.) -/
def check_rate_limit (now : ℤ) (tracker : List ℤ) (max_requests : ℕ)
    (window_seconds : ℤ) : RateResult × List ℤ :=
  let cutoff := now - window_seconds
  let kept := tracker.filter (fun req_time => cutoff < req_time)
  let current_count := kept.length
  if max_requests ≤ current_count then
    let oldest_request := kept.min?.getD 0
    let retry_after := oldest_request + window_seconds - now
    (⟨false, some (max 0 retry_after), 0⟩, kept)
  else
    (⟨true, none, (max_requests : ℤ) - current_count - 1⟩, kept ++ [now])

/-- Run a sequence of request timestamps against one resource bucket
with `execute_agent`'s parameters (100 requests / 60-second window),
returning the allowed timestamps and the final bucket. -/
def rlRun : List ℤ → List ℤ → List ℤ × List ℤ
  | [], tracker => ([], tracker)
  | t :: ts, tracker =>
    let step := check_rate_limit t tracker 100 60
    let rest := rlRun ts step.2
    ((if step.1.allowed then [t] else []) ++ rest.1, rest.2)

theorem filter_window_absorb (l : List ℤ) (t tl : ℤ) (h : t ≤ tl) :
    (l.filter (fun x => t - 60 < x)).filter (fun x => tl - 60 < x) =
      l.filter (fun x => tl - 60 < x) := by
  rw [List.filter_filter]
  apply List.filter_congr
  intro x _
  by_cases h1 : tl - 60 < x
  · have h2 : t - 60 < x := lt_of_le_of_lt (by linarith) h1
    simp [h1, h2]
  · simp [h1]

/-- `generate_event_id`: the SHA-256 hex digest of
`json.dumps({action, context, resource_id}, sort_keys=True)`.  The digest
is modelled by the canonical serialization itself — every property proved
below uses only that the id is a deterministic function of the triple.
The execution layer always passes `context = {"domain": domain}`. -/
def generate_event_id (action resource_id domain : String) : String :=
  "\x7b action: " ++ action ++ ", context: \x7b domain: " ++ domain ++
    " \x7d, resource_id: " ++ resource_id ++ " \x7d"

/-- Python `s.startswith(pre)` on kernel-reducible lists. -/
def pyStartsWith (s pre : String) : Bool :=
  pre.toList.isPrefixOf s.toList

/-- The result record of `check_conflict`. -/
structure ConflictCheck where
  has_conflict : Bool
  conflict_type : Option String := none
  conflicting_agent : Option String := none
  resolution : Option String := none
deriving DecidableEq, Repr

/-- `AgentConflictManager._resolve_priority` (its `world_model` argument
is unused by the source). -/
def _resolve_priority (m : AgentConflictManager) (agent1_id agent2_id : String) : String :=
  let priority1 := (alGet agent1_id m.agent_priorities).getD 5
  let priority2 := (alGet agent2_id m.agent_priorities).getD 5
  if priority1 > priority2 then "agent1_wins"
  else if priority2 > priority1 then "agent2_wins"
  else "agent1_wins"

/-- `AgentConflictManager.check_conflict` (its `world_model` argument is
unused by the source): a write/delete on a resource locked by another
agent is a resource-lock conflict resolved by priority; otherwise two
different `gmail.apply_label` actions on the same resource are a label
conflict. -/
def check_conflict (m : AgentConflictManager) (agent_id : String)
    (action : ActionCfg) (resource_id : String) : ConflictCheck :=
  let action_type := action.type.getD ""
  let fromLock : Option ConflictCheck :=
    if action_type = "write" ∨ action_type = "delete" then
      match alGet resource_id m.active_locks with
      | some lock_info =>
        if lock_info.agent_id ≠ agent_id then
          some ⟨true, some "resource_lock", some lock_info.agent_id,
            some (_resolve_priority m agent_id lock_info.agent_id)⟩
        else none
      | none => none
    else none
  match fromLock with
  | some c => c
  | none =>
    let fromLabel : Option ConflictCheck :=
      if pyStartsWith (action.doAct.getD "") "gmail.apply_label" then
        match m.active_locks.find? (fun p =>
            p.1 = resource_id ∧
            pyStartsWith (p.2.action.doAct.getD "") "gmail.apply_label" ∧
            p.2.action.doAct ≠ action.doAct) with
        | some p => some ⟨true, some "label_conflict", some p.2.agent_id, some "priority_based"⟩
        | none => none
      else none
    match fromLabel with
    | some c => c
    | none => ⟨false, none, none, none⟩

/-- `priority_map = {"low": 5, "medium": 7, "high": 9}` read with
`.get(priority, 5)`. -/
def priority_map (risk_level : String) : ℤ :=
  if risk_level = "low" then 5
  else if risk_level = "medium" then 7
  else if risk_level = "high" then 9
  else 5

/-- The per-process mutable state one `execute_agent` action touches in
the email domain: the processed-event set, the per-resource rate-limit
buckets, the conflict manager, and the processed emails. -/
structure ExecState where
  processed_events : List String := []
  rate_limit_tracker : List (String × List ℤ) := []
  cm : AgentConflictManager := {}
  emails : List Email := []
deriving DecidableEq, Repr

/-- The email effect simulator of `execute_agent` for `apply_label`
actions: label every email whose `hidden_priority` is high. -/
def applyLabelEffect (emails : List Email) : List Email :=
  emails.map (fun e =>
    if e.hidden_priority = some "high" then { e with applied_label := some "Important" }
    else e)

/-- The effect phase of the action loop: run the `apply_label` simulator
and release the lock, or record the unimplemented action as `skipped`. -/
def execEffect (s : ExecState) (action_do : String) (rid : Option String) :
    ExecState × String :=
  if strContains action_do "apply_label" then
    let s1 : ExecState := { s with emails := applyLabelEffect s.emails }
    let s2 : ExecState :=
      match rid with
      | some r => { s1 with cm := release_lock s1.cm r }
      | none => s1
    (s2, "success")
  else
    (s, "skipped")

/-- One `actions`-loop iteration of `execute_agent` for the email domain:
rate limit, policy, approval gate, idempotency (the event id is added to
the processed set by the very check), conflict management, then the
effect.  Returns the updated state and the recorded per-action status. -/
def execStep (wm : WorldModel) (agent_cfg : AgentConfigPol) (agent_id : String)
    (a : ActionCfg) (now : ℤ) (s : ExecState) : ExecState × String :=
  let action_do := a.doAct.getD ""
  let resource := a.resource.getD "default"
  let bucket := (alGet resource s.rate_limit_tracker).getD []
  let rate := check_rate_limit now bucket 100 60
  let tracker1 := alInsert resource rate.2 s.rate_limit_tracker
  let s1 : ExecState := { s with rate_limit_tracker := tracker1 }
  if rate.1.allowed = false then (s1, "rate_limited")
  else
    let permission := check_permission action_do wm (some agent_cfg)
    if permission.allowed = false then (s1, "blocked")
    else if a.requires_approval ∧ permission.requires_approval then (s1, "pending_approval")
    else
      let resource_id : Option String :=
        match s.emails with
        | [] => none
        | e :: _ => e.id
      match resource_id with
      | some rid =>
        if rid = "" then execEffect s1 action_do none
        else
          let event_id := generate_event_id action_do rid "email"
          if event_id ∈ s.processed_events then (s1, "skipped")
          else
            let s2 : ExecState := { s1 with processed_events := event_id :: s.processed_events }
            let cc := check_conflict s.cm agent_id a rid
            let priority_score := priority_map agent_cfg.risk_level
            if cc.has_conflict then
              if cc.resolution = some "agent1_wins" then
                let acq := acquire_lock s.cm agent_id rid a priority_score now
                let s3 : ExecState := { s2 with cm := acq.2 }
                if acq.1 then execEffect s3 action_do (some rid)
                else (s3, "conflict")
              else (s2, "conflict")
            else
              let acq := acquire_lock s.cm agent_id rid a priority_score now
              execEffect { s2 with cm := acq.2 } action_do (some rid)
      | none => execEffect s1 action_do none

theorem rlRun_cons (t : ℤ) (ts tracker : List ℤ) :
    rlRun (t :: ts) tracker =
      ((if (check_rate_limit t tracker 100 60).1.allowed then [t] else []) ++
        (rlRun ts (check_rate_limit t tracker 100 60).2).1,
       (rlRun ts (check_rate_limit t tracker 100 60).2).2) := rfl

theorem rlRun_invariant (ts : List ℤ) : ∀ (tracker : List ℤ) (tl : ℤ),
    List.Sorted (· ≤ ·) ts → ts.getLast? = some tl →
    (∀ x ∈ tracker, ∀ t ∈ ts, x ≤ t) → tracker.length ≤ 100 →
    (rlRun ts tracker).2 =
      (tracker ++ (rlRun ts tracker).1).filter (fun x => tl - 60 < x) ∧
    (rlRun ts tracker).2.length ≤ 100 := by
  induction ts with
  | nil =>
    intro tracker tl _ hlast _ _
    simp at hlast
  | cons t ts ih =>
    intro tracker tl hsort hlast htr hlen
    have hhead : ∀ b ∈ ts, t ≤ b := (List.sorted_cons.mp hsort).1
    have hsort2 : List.Sorted (· ≤ ·) ts := (List.sorted_cons.mp hsort).2
    by_cases hfull : 100 ≤ (tracker.filter (fun x => t - 60 < x)).length
    · have hcr : check_rate_limit t tracker 100 60 =
          (⟨false, some (max 0 ((tracker.filter (fun x => t - 60 < x)).min?.getD 0 + 60 - t)), 0⟩,
           tracker.filter (fun x => t - 60 < x)) := by
        simp only [check_rate_limit]
        rw [if_pos hfull]
      have hkeptlen : (tracker.filter (fun x => t - 60 < x)).length ≤ 100 :=
        le_trans (List.length_filter_le _ _) hlen
      have hL : (rlRun (t :: ts) tracker).2 =
          (rlRun ts (tracker.filter (fun x => t - 60 < x))).2 := by
        rw [rlRun_cons, hcr]
      have hA : (rlRun (t :: ts) tracker).1 =
          (rlRun ts (tracker.filter (fun x => t - 60 < x))).1 := by
        rw [rlRun_cons, hcr]
        simp
      cases ts with
      | nil =>
        have htl : t = tl := by simpa using hlast
        subst htl
        refine ⟨?_, ?_⟩
        · rw [hL, hA]
          simp [rlRun]
        · rw [hL]
          exact hkeptlen
      | cons t2 ts2 =>
        have hlast2 : (t2 :: ts2).getLast? = some tl := by
          rw [← List.getLast?_cons_cons]
          exact hlast
        have htl_mem : tl ∈ t2 :: ts2 := List.mem_of_getLast?_eq_some hlast2
        have httl : t ≤ tl := hhead tl htl_mem
        have htr2 : ∀ x ∈ tracker.filter (fun x => t - 60 < x), ∀ u ∈ t2 :: ts2, x ≤ u := by
          intro x hx u hu
          exact htr x (List.filter_subset' tracker hx) u (List.mem_cons_of_mem t hu)
        have hIH := ih (tracker.filter (fun x => t - 60 < x)) tl hsort2 hlast2 htr2 hkeptlen
        refine ⟨?_, ?_⟩
        · rw [hL, hA, hIH.1]
          simp only [List.filter_append]
          rw [filter_window_absorb tracker t tl httl]
        · rw [hL]
          exact hIH.2
    · have hcr : check_rate_limit t tracker 100 60 =
          (⟨true, none, ((100 : ℕ) : ℤ) - (tracker.filter (fun x => t - 60 < x)).length - 1⟩,
           tracker.filter (fun x => t - 60 < x) ++ [t]) := by
        simp only [check_rate_limit]
        rw [if_neg hfull]
      have hkeptlen : (tracker.filter (fun x => t - 60 < x)).length + 1 ≤ 100 := by omega
      have htinw : (t - 60 < t) := by linarith
      have hL : (rlRun (t :: ts) tracker).2 =
          (rlRun ts (tracker.filter (fun x => t - 60 < x) ++ [t])).2 := by
        rw [rlRun_cons, hcr]
      have hA : (rlRun (t :: ts) tracker).1 =
          t :: (rlRun ts (tracker.filter (fun x => t - 60 < x) ++ [t])).1 := by
        rw [rlRun_cons, hcr]
        simp
      cases ts with
      | nil =>
        have htl : t = tl := by simpa using hlast
        subst htl
        refine ⟨?_, ?_⟩
        · rw [hL, hA]
          simp [rlRun, List.filter_append, htinw]
        · rw [hL]
          show (tracker.filter (fun x => t - 60 < x) ++ [t]).length ≤ 100
          simpa using hkeptlen
      | cons t2 ts2 =>
        have hlast2 : (t2 :: ts2).getLast? = some tl := by
          rw [← List.getLast?_cons_cons]
          exact hlast
        have htl_mem : tl ∈ t2 :: ts2 := List.mem_of_getLast?_eq_some hlast2
        have httl : t ≤ tl := hhead tl htl_mem
        have htr2 : ∀ x ∈ tracker.filter (fun x => t - 60 < x) ++ [t],
            ∀ u ∈ t2 :: ts2, x ≤ u := by
          intro x hx u hu
          rcases List.mem_append.mp hx with hx1 | hx2
          · exact htr x (List.filter_subset' tracker hx1) u (List.mem_cons_of_mem t hu)
          · rw [List.mem_singleton.mp hx2]
            exact hhead u hu
        have hIH := ih (tracker.filter (fun x => t - 60 < x) ++ [t]) tl hsort2 hlast2 htr2
          (by simpa using hkeptlen)
        refine ⟨?_, ?_⟩
        · rw [hL, hA, hIH.1, List.append_cons]
          simp only [List.filter_append]
          rw [filter_window_absorb tracker t tl httl]
          by_cases hc : tl - 60 < t
          · simp [List.filter_cons, List.filter_append, List.append_assoc, hc]
          · simp [List.filter_cons, List.filter_append, List.append_assoc, hc]
        · rw [hL]
          exact hIH.2
theorem applyLabelEffect_cons (e : Email) (rest : List Email) :
    applyLabelEffect (e :: rest) =
      (if e.hidden_priority = some "high" then { e with applied_label := some "Important" }
       else e) :: applyLabelEffect rest := rfl

theorem execStep_rate_limited (wm : WorldModel) (cfg : AgentConfigPol) (aid : String)
    (a : ActionCfg) (now : ℤ) (s : ExecState)
    (h : (check_rate_limit now
        ((alGet (a.resource.getD "default") s.rate_limit_tracker).getD []) 100 60).1.allowed =
      false) :
    (execStep wm cfg aid a now s).2 = "rate_limited" := by
  simp only [execStep, h]
  rfl

theorem execStep_skips (wm : WorldModel) (cfg : AgentConfigPol) (aid : String)
    (a : ActionCfg) (now : ℤ) (s : ExecState) (e : Email) (rest : List Email) (rid : String)
    (hemails : s.emails = e :: rest)
    (hid : e.id = some rid)
    (hrid : ¬ rid = "")
    (hrate : (check_rate_limit now
        ((alGet (a.resource.getD "default") s.rate_limit_tracker).getD []) 100 60).1.allowed =
      true)
    (hperm : (check_permission (a.doAct.getD "") wm (some cfg)).allowed = true)
    (happr : ¬(a.requires_approval ∧
      (check_permission (a.doAct.getD "") wm (some cfg)).requires_approval))
    (hmem : generate_event_id (a.doAct.getD "") rid "email" ∈ s.processed_events) :
    (execStep wm cfg aid a now s).2 = "skipped" ∧
    (execStep wm cfg aid a now s).1.processed_events = s.processed_events ∧
    (execStep wm cfg aid a now s).1.emails = s.emails ∧
    (execStep wm cfg aid a now s).1.cm = s.cm := by
  simp [execStep, hemails, hid, hrid, hrate, hperm, happr, hmem]

theorem execStep_reaches_idem (wm : WorldModel) (cfg : AgentConfigPol) (aid : String)
    (a : ActionCfg) (now : ℤ) (s : ExecState) (e : Email) (rest : List Email) (rid : String)
    (hemails : s.emails = e :: rest)
    (hid : e.id = some rid)
    (hrid : ¬ rid = "")
    (hrate : (check_rate_limit now
        ((alGet (a.resource.getD "default") s.rate_limit_tracker).getD []) 100 60).1.allowed =
      true)
    (hperm : (check_permission (a.doAct.getD "") wm (some cfg)).allowed = true)
    (happr : ¬(a.requires_approval ∧
      (check_permission (a.doAct.getD "") wm (some cfg)).requires_approval)) :
    generate_event_id (a.doAct.getD "") rid "email" ∈
      (execStep wm cfg aid a now s).1.processed_events ∧
    (∃ e2 rest2, (execStep wm cfg aid a now s).1.emails = e2 :: rest2 ∧ e2.id = some rid) := by
  by_cases hmem : generate_event_id (a.doAct.getD "") rid "email" ∈ s.processed_events
  · have h := execStep_skips wm cfg aid a now s e rest rid hemails hid hrid hrate hperm happr hmem
    rw [h.2.1, h.2.2.1, hemails]
    exact ⟨hmem, e, rest, rfl, hid⟩
  · simp only [execStep, hemails, hid, hrid, hrate, hperm, happr, hmem, execEffect,
      applyLabelEffect_cons, Bool.true_eq_false, if_false, ite_false, not_false_iff]
    repeat' split
    all_goals
      first
      | exact ⟨by simp, e, rest, rfl, hid⟩
      | exact ⟨by simp, _, _, rfl, rfl⟩
      | exact ⟨by simp, _, _, rfl, hid⟩

theorem execStep_emails_shape (wm : WorldModel) (cfg : AgentConfigPol) (aid : String)
    (a : ActionCfg) (now : ℤ) (s : ExecState) :
    (execStep wm cfg aid a now s).1.emails = s.emails ∨
    ((execStep wm cfg aid a now s).1.emails = applyLabelEffect s.emails ∧
     (execStep wm cfg aid a now s).2 = "success") := by
  simp only [execStep, execEffect]
  repeat' split
  all_goals simp_all

/-- C4: within any 60-second rate window (the windows the code uses: the
60 seconds ending at a request time) the number of requests that
`check_rate_limit` allows for a resource is at most 100; a request
arriving when the in-window count is already at 100 is refused with
`retry_after` computed from the oldest in-window request; and the
execution layer records such a refusal as `rate_limited`. -/
theorem rate_limit_spec :
    (∀ (pre post : List ℤ) (t : ℤ), List.Sorted (· ≤ ·) (pre ++ t :: post) →
      (((rlRun (pre ++ [t]) []).1).filter (fun x => t - 60 < x)).length ≤ 100) ∧
    (∀ (now : ℤ) (tracker : List ℤ),
      100 ≤ (tracker.filter (fun x => now - 60 < x)).length →
      check_rate_limit now tracker 100 60 =
        (⟨false,
          some (max 0 ((tracker.filter (fun x => now - 60 < x)).min?.getD 0 + 60 - now)), 0⟩,
         tracker.filter (fun x => now - 60 < x))) ∧
    (∀ (wm : WorldModel) (cfg : AgentConfigPol) (aid : String) (a : ActionCfg) (now : ℤ)
      (s : ExecState),
      (check_rate_limit now
        ((alGet (a.resource.getD "default") s.rate_limit_tracker).getD []) 100 60).1.allowed =
        false →
      (execStep wm cfg aid a now s).2 = "rate_limited") := by
  refine ⟨?_, ?_, ?_⟩
  · intro pre post t hsort
    have hsub : (pre ++ [t]).Sublist (pre ++ t :: post) :=
      List.Sublist.append_left (List.cons_sublist_cons.mpr (List.nil_sublist post)) pre
    have hsort2 : List.Sorted (· ≤ ·) (pre ++ [t]) := List.Pairwise.sublist hsub hsort
    have hlast : (pre ++ [t]).getLast? = some t := List.getLast?_concat pre
    have h := rlRun_invariant (pre ++ [t]) [] t hsort2 hlast
      (by intro x hx; cases hx) (by simp)
    have h2 := h.2
    rw [h.1] at h2
    simpa using h2
  · intro now tracker h
    simp only [check_rate_limit]
    rw [if_pos h]
  · exact fun wm cfg aid a now s h => execStep_rate_limited wm cfg aid a now s h

/-- Witness for C4 at concrete inputs: a sorted two-request run stays
within the bound; a bucket already holding 100 in-window requests is
refused with the computed backoff; the refusal is recorded
`rate_limited`. -/
theorem rate_limit_spec_witness :
    ((rlRun ([0] ++ [1]) []).1.filter (fun x => (1 : ℤ) - 60 < x)).length ≤ 100 ∧
    check_rate_limit 30 (List.replicate 100 (0 : ℤ)) 100 60 =
      (⟨false,
        some (max 0
          (((List.replicate 100 (0 : ℤ)).filter (fun x => (30 : ℤ) - 60 < x)).min?.getD 0 +
            60 - 30)), 0⟩,
       (List.replicate 100 (0 : ℤ)).filter (fun x => (30 : ℤ) - 60 < x)) ∧
    (execStep {} {} "agentA" {} 30
      { rate_limit_tracker := [("default", List.replicate 100 (0 : ℤ))] }).2 =
      "rate_limited" :=
  ⟨rate_limit_spec.1 [0] [] 1 (by decide),
   rate_limit_spec.2.1 30 (List.replicate 100 (0 : ℤ)) (by decide),
   rate_limit_spec.2.2 {} {} "agentA" {} 30 _ (by decide)⟩

/-- C3: two executions of an action with the same (action, resource_id,
context) triple — hence the same event id — collapse to one: whatever the
first call did after passing its gates, the second call is recorded
`skipped` and leaves the processed-event set, the processed emails and
the lock manager exactly as the first call left them, so
`execute ∘ execute = execute` over the processed data and the
processed-event set. -/
theorem execute_idempotent (wm : WorldModel) (cfg : AgentConfigPol) (aid : String)
    (a : ActionCfg) (now1 now2 : ℤ) (s : ExecState) (e : Email) (rest : List Email)
    (rid : String)
    (hemails : s.emails = e :: rest)
    (hid : e.id = some rid)
    (hrid : ¬ rid = "")
    (hrate1 : (check_rate_limit now1
        ((alGet (a.resource.getD "default") s.rate_limit_tracker).getD []) 100 60).1.allowed =
      true)
    (hperm : (check_permission (a.doAct.getD "") wm (some cfg)).allowed = true)
    (happr : ¬(a.requires_approval ∧
      (check_permission (a.doAct.getD "") wm (some cfg)).requires_approval))
    (hrate2 : (check_rate_limit now2
        ((alGet (a.resource.getD "default")
          (execStep wm cfg aid a now1 s).1.rate_limit_tracker).getD []) 100 60).1.allowed =
      true) :
    (execStep wm cfg aid a now2 (execStep wm cfg aid a now1 s).1).2 = "skipped" ∧
    (execStep wm cfg aid a now2 (execStep wm cfg aid a now1 s).1).1.processed_events =
      (execStep wm cfg aid a now1 s).1.processed_events ∧
    (execStep wm cfg aid a now2 (execStep wm cfg aid a now1 s).1).1.emails =
      (execStep wm cfg aid a now1 s).1.emails ∧
    (execStep wm cfg aid a now2 (execStep wm cfg aid a now1 s).1).1.cm =
      (execStep wm cfg aid a now1 s).1.cm := by
  obtain ⟨hmem1, e2, rest2, hem2, hid2⟩ :=
    execStep_reaches_idem wm cfg aid a now1 s e rest rid hemails hid hrid hrate1 hperm happr
  exact execStep_skips wm cfg aid a now2 (execStep wm cfg aid a now1 s).1 e2 rest2 rid
    hem2 hid2 hrid hrate2 hperm happr hmem1

/-- A world model fixture used by the execution witnesses: writes are not
blocked by default and the labeling action is allowlisted. -/
def wmE : WorldModel :=
  { policy := { default_write_block := false, action_allowlist := ["gmail.apply_label"] } }

/-- The labeling action fixture used by the execution witnesses. -/
def aE : ActionCfg :=
  { type := some "write", doAct := some "gmail.apply_label" }

/-- An initial execution state with one high-priority email. -/
def sE : ExecState :=
  { emails := [{ id := some "e1", hidden_priority := some "high" }] }

/-- Witness for C3 at concrete inputs: running the labeling action twice
on the same inbox skips the second run and changes nothing further. -/
theorem execute_idempotent_witness :
    (execStep wmE {} "agentA" aE 1 (execStep wmE {} "agentA" aE 0 sE).1).2 = "skipped" ∧
    (execStep wmE {} "agentA" aE 1 (execStep wmE {} "agentA" aE 0 sE).1).1.processed_events =
      (execStep wmE {} "agentA" aE 0 sE).1.processed_events ∧
    (execStep wmE {} "agentA" aE 1 (execStep wmE {} "agentA" aE 0 sE).1).1.emails =
      (execStep wmE {} "agentA" aE 0 sE).1.emails ∧
    (execStep wmE {} "agentA" aE 1 (execStep wmE {} "agentA" aE 0 sE).1).1.cm =
      (execStep wmE {} "agentA" aE 0 sE).1.cm :=
  execute_idempotent wmE {} "agentA" aE 0 1 sE
    { id := some "e1", hidden_priority := some "high" } [] "e1"
    rfl rfl (by decide) (by decide) (by decide) (by decide) (by decide)

/-- C10: `check_idempotency` adds the event id as a side effect of the
very first check, before the effect runs: when the first attempt is
recorded `conflict` the effect was not performed, yet the id is in the
processed set, so a later execution of the same (action, resource_id,
context) is recorded `skipped` — the effect is performed on no attempt. -/
theorem idempotency_consumed_on_conflict (wm : WorldModel) (cfg : AgentConfigPol)
    (aid : String) (a : ActionCfg) (now1 now2 : ℤ) (s : ExecState) (e : Email)
    (rest : List Email) (rid : String)
    (hemails : s.emails = e :: rest)
    (hid : e.id = some rid)
    (hrid : ¬ rid = "")
    (hrate1 : (check_rate_limit now1
        ((alGet (a.resource.getD "default") s.rate_limit_tracker).getD []) 100 60).1.allowed =
      true)
    (hperm : (check_permission (a.doAct.getD "") wm (some cfg)).allowed = true)
    (happr : ¬(a.requires_approval ∧
      (check_permission (a.doAct.getD "") wm (some cfg)).requires_approval))
    (hconf : (execStep wm cfg aid a now1 s).2 = "conflict")
    (hrate2 : (check_rate_limit now2
        ((alGet (a.resource.getD "default")
          (execStep wm cfg aid a now1 s).1.rate_limit_tracker).getD []) 100 60).1.allowed =
      true) :
    (execStep wm cfg aid a now1 s).1.emails = s.emails ∧
    generate_event_id (a.doAct.getD "") rid "email" ∈
      (execStep wm cfg aid a now1 s).1.processed_events ∧
    (execStep wm cfg aid a now2 (execStep wm cfg aid a now1 s).1).2 = "skipped" ∧
    (execStep wm cfg aid a now2 (execStep wm cfg aid a now1 s).1).1.emails = s.emails := by
  have hunch : (execStep wm cfg aid a now1 s).1.emails = s.emails := by
    rcases execStep_emails_shape wm cfg aid a now1 s with h | ⟨_, hsucc⟩
    · exact h
    · rw [hconf] at hsucc
      exact absurd hsucc (by decide)
  have hreach := execStep_reaches_idem wm cfg aid a now1 s e rest rid hemails hid hrid
    hrate1 hperm happr
  have hskip := execStep_skips wm cfg aid a now2 (execStep wm cfg aid a now1 s).1 e rest rid
    (by rw [hunch, hemails]) hid hrid hrate2 hperm happr hreach.1
  exact ⟨hunch, hreach.1, hskip.1, by rw [hskip.2.2.1, hunch]⟩

/-- An execution state whose single email is already write-locked by a
higher-priority agent, used as the C10 witness fixture. -/
def sC10 : ExecState :=
  { emails := [{ id := some "e1", hidden_priority := some "high" }]
    cm := { active_locks := [("e1", ⟨"agentB", {}, 0⟩)]
            agent_priorities := [("agentB", 7)] } }

/-- Witness for C10 at concrete inputs: the first attempt loses the lock
arbitration and is recorded `conflict` with no labels applied, yet the
second attempt is `skipped` and the emails are never labeled. -/
theorem idempotency_consumed_on_conflict_witness :
    (execStep wmE {} "agentA" aE 0 sC10).1.emails = sC10.emails ∧
    generate_event_id (aE.doAct.getD "") "e1" "email" ∈
      (execStep wmE {} "agentA" aE 0 sC10).1.processed_events ∧
    (execStep wmE {} "agentA" aE 1 (execStep wmE {} "agentA" aE 0 sC10).1).2 = "skipped" ∧
    (execStep wmE {} "agentA" aE 1 (execStep wmE {} "agentA" aE 0 sC10).1).1.emails =
      sC10.emails :=
  idempotency_consumed_on_conflict wmE {} "agentA" aE 0 1 sC10
    { id := some "e1", hidden_priority := some "high" } [] "e1"
    rfl rfl (by decide) (by decide) (by decide) (by decide) (by decide) (by decide)

/-! ## Sensitivity rules and audit entries
(`src/layers/crosscutting/security.py`, `observability.py`) -/

/-- A primitive Python value as stored in the records that get logged. -/
inductive PyVal where
  | s (v : String)
  | i (v : ℤ)
  | none
deriving DecidableEq, Repr

/-- Python `str` of a primitive value as it appears inside `str(dict)`. -/
def pyValStr : PyVal → String
  | .s v => String.singleton (Char.ofNat 39) ++ v ++ String.singleton (Char.ofNat 39)
  | .i v => toString v
  | .none => "None"

/-- Comma-join used by the `str(dict)` rendering. -/
def joinCommaSep : List String → String
  | [] => ""
  | [x] => x
  | x :: rest => x ++ ", " ++ joinCommaSep rest

/-- Python `str(dict)` for a flat record: `{'key': value, ...}`. -/
def pyDictStr (d : List (String × PyVal)) : String :=
  "\x7b" ++ joinCommaSep
    (d.map (fun p =>
      String.singleton (Char.ofNat 39) ++ p.1 ++ String.singleton (Char.ofNat 39) ++
        ": " ++ pyValStr p.2)) ++ "\x7d"

/-- The high-sensitivity keywords of `classify_sensitivity`. -/
def high_sensitivity_keywords : List String :=
  ["body", "content", "text", "message", "personal_info",
   "password", "token", "secret", "private"]

/-- The medium-sensitivity keywords of `classify_sensitivity`. -/
def medium_sensitivity_keywords : List String :=
  ["subject", "title", "sender", "domain", "metadata"]

/-- `classify_sensitivity`: keyword search over `str(data).lower()`. -/
def classify_sensitivity (data : List (String × PyVal)) : String :=
  let data_str := pyLower (pyDictStr data)
  if high_sensitivity_keywords.any (fun kw => strContains data_str kw) then "high"
  else if medium_sensitivity_keywords.any (fun kw => strContains data_str kw) then "medium"
  else "low"

/-- One entry of `execution_result["workflow_results"]` as
`log_agent_execution` reads it. -/
structure WfResult where
  action : Option String := none
  tool : Option String := none
  status : Option String := none
  output : Option String := none
deriving DecidableEq, Repr

/-- One element of the `tool_calls` list placed in the audit entry. -/
structure ToolCallLog where
  name : String
  tool : String
  success : Bool
  output : String
deriving DecidableEq, Repr

/-- The slice of an execution result that `log_agent_execution` reads;
the processed per-domain records are kept as the flat dictionaries that
get logged. -/
structure ExecResultLog where
  workflow_results : List WfResult := []
  domain : Option String := none
  processed_emails : List (List (String × PyVal)) := []
  processed_prs : List (List (String × PyVal)) := []
  processed_records : List (List (String × PyVal)) := []
  processed_transactions : List (List (String × PyVal)) := []
  summary : List (String × PyVal) := []
deriving DecidableEq, Repr

/-- An `executions.jsonl` audit entry as `AuditLogger.log_execution`
writes it. -/
structure ExecutionLogEntry where
  type : String
  timestamp : ℤ
  agent_id : String
  trigger_event_id : Option String
  tool_calls : List ToolCallLog
  actions : List (List (String × PyVal))
  outcome_metrics : List (String × PyVal)
deriving DecidableEq, Repr

/-- `log_agent_execution` composed with `AuditLogger.log_execution`: the
audit entry appended to `logs/executions.jsonl`.  The `actions` field is
the domain's processed data, copied verbatim with no masking. -/
def log_agent_execution_entry (agent_id : String) (execution_result : ExecResultLog)
    (trigger_event_id : Option String) (now : ℤ) : ExecutionLogEntry :=
  let tool_calls := execution_result.workflow_results.map (fun r =>
    (⟨r.action.getD "unknown", r.tool.getD "unknown",
      r.status = some "success", r.output.getD ""⟩ : ToolCallLog))
  let domain := execution_result.domain.getD "email"
  let processed_data :=
    if domain = "email" then execution_result.processed_emails
    else if domain = "github" then execution_result.processed_prs
    else if domain = "health" then execution_result.processed_records
    else if domain = "finance" then execution_result.processed_transactions
    else []
  { type := "execution"
    timestamp := now
    agent_id := agent_id
    trigger_event_id := trigger_event_id
    tool_calls := tool_calls
    actions := processed_data
    outcome_metrics := execution_result.summary }

/-- The C9 failing input: a processed email that still carries its
message body. -/
def emailC9 : List (String × PyVal) :=
  [("id", .s "email_1"), ("subject", .s "Q3 numbers"),
   ("body", .s "full message text")]

/-- C9: the execution audit entry built by `log_agent_execution` for an
email run contains the full processed email — body included — in its
`actions` field, and that payload is classified `high` by
`classify_sensitivity`: the code writes high-classified data into the
audit log (no masking is ever applied), violating the claimed
invariant. -/
theorem audit_entry_contains_high_payload :
    (log_agent_execution_entry "agent_email"
        { domain := some "email", processed_emails := [emailC9] } none 0).actions =
      [emailC9] ∧
    classify_sensitivity emailC9 = "high" := by
  constructor
  · rfl
  · decide
